import Mathlib

/-!
State bookkeeping of the AI-powered text processor (`src/App.jsx`).

A shallow embedding of the message store kept by `App` and of the state
updaters that `handleSendMessage`, `handleSummarize` and `handleTranslate`
pass to `setMessages`, together with the eligibility predicate computed for
`MessageBubble`.

Modelling conventions.

* A JavaScript string is a Lean `String`; `text.length` counts UTF-16 code
  units (`jsLength`).
* A property that may be missing from a message object is an `Option`
  (`none` is `undefined`).
* `Date.now()` is a natural number of milliseconds handed in by the caller;
  `new Date().toISOString()` is a string handed in the same way.
* Results of the host capabilities (detector, summarizer, translator) are
  inputs of the model: what the host returned, or the fact that it threw.
* Each function passed to `setMessages` is one `Update`; the handlers are
  sequences of such updates, between which other events may be processed.
-/

namespace App

/-! ## Strings -/

/-- Code points removed by `String.prototype.trim`: ECMAScript `WhiteSpace`
and `LineTerminator`. -/
def isJsWhiteSpace (c : Char) : Bool :=
  let n := c.toNat
  n = 0x09 || n = 0x0A || n = 0x0B || n = 0x0C || n = 0x0D || n = 0x20 ||
  n = 0xA0 || n = 0x1680 || (0x2000 ≤ n && n ≤ 0x200A) || n = 0x2028 ||
  n = 0x2029 || n = 0x202F || n = 0x205F || n = 0x3000 || n = 0xFEFF

/-- The method `trim()` of a string. -/
def jsTrim (s : String) : String :=
  String.mk (((s.data.dropWhile isJsWhiteSpace).reverse.dropWhile isJsWhiteSpace).reverse)

/-- The property `length` of a string: its number of UTF-16 code units. -/
def jsLength (s : String) : Nat :=
  (s.data.map (fun c => if c.toNat < 0x10000 then 1 else 2)).sum

/-- Truthiness of a value that is `undefined` or a string. -/
def truthy : Option String → Bool
  | none => false
  | some s => s != ""

/-! ## Plain objects used as string-keyed maps -/

/-- An object whose own properties are strings, in property order. -/
abbrev Obj := List (String × String)

/-- Property read `o[k]`. -/
def Obj.get (o : Obj) (k : String) : Option String :=
  (o.find? (fun e => e.1 == k)).map (fun e => e.2)

/-- The object literal `{ ...o, [k]: v }`: an existing key keeps its place
and takes the new value, a new key goes last. -/
def Obj.set (o : Obj) (k v : String) : Obj :=
  if o.any (fun e => e.1 == k) then
    o.map (fun e => if e.1 == k then (k, v) else e)
  else
    o ++ [(k, v)]

/-! ## Messages -/

/-- A message record of the `messages` state. -/
structure Message where
  id : Nat
  text : String
  timestamp : String
  isProcessing : Bool
  detectedLanguage : Option String := none
  languageName : Option String := none
  confidence : Option String := none
  hasError : Option Bool := none
  isSummarizing : Option Bool := none
  summary : Option String := none
  summaryError : Option Bool := none
  isTranslating : Option Bool := none
  targetLanguage : Option String := none
  translations : Option Obj := none
  translationError : Option Bool := none
  deriving DecidableEq

/-- The object `newMessage` built by `handleSendMessage` (lines 61-66). -/
def newMessage (inputText : String) (now : Nat) (isoTime : String) : Message :=
  { id := now, text := jsTrim inputText, timestamp := isoTime, isProcessing := true }

/-- The shape of every updater that targets one message:
`prev.map(msg => msg.id === id ? f(msg) : msg)`. -/
def mapById (id : Nat) (f : Message → Message) (prev : List Message) : List Message :=
  prev.map (fun msg => if msg.id = id then f msg else msg)

/-- The updater of the `catch` block of `handleSendMessage` (lines 104-110):
`Date.now()` is read again for each element; the element at index `p` of the
list is compared with the reading `clock (start + p)`. -/
def markSendError (clock : Nat → Nat) : Nat → List Message → List Message
  | _, [] => []
  | k, msg :: rest =>
    (if msg.id = clock k then { msg with isProcessing := false, hasError := some true }
     else msg) :: markSendError clock (k + 1) rest

/-- The functions passed to `setMessages` that rewrite messages in place. -/
inductive Update where
  /-- Lines 81-89: the detection result; `confidence` is the text produced by
  `(confidence * 100).toFixed(1)`. -/
  | detected (id : Nat) (detectedLanguage languageName confidence : String)
  /-- Lines 92-97: the detector is not ready. -/
  | processed (id : Nat)
  /-- Lines 104-110: the `catch` block of `handleSendMessage`. -/
  | sendFailed (clock : Nat → Nat)
  /-- Lines 128-133. -/
  | summarizing (id : Nat)
  /-- Lines 140-146. -/
  | summarized (id : Nat) (summary : String)
  /-- Lines 152-158. -/
  | summaryFailed (id : Nat)
  /-- Lines 170-176. -/
  | translating (id : Nat) (targetLanguage : String)
  /-- Lines 190-199. -/
  | translated (id : Nat) (targetLanguage translation : String)
  /-- Lines 205-211. -/
  | translationFailed (id : Nat)

/-- The new value of `messages` after an updater has run on `prev`. -/
def applyUpdate : Update → List Message → List Message
  | .detected id lang name conf, prev =>
    mapById id (fun msg => { msg with
      isProcessing := false, detectedLanguage := some lang,
      languageName := some name, confidence := some conf }) prev
  | .processed id, prev =>
    mapById id (fun msg => { msg with isProcessing := false }) prev
  | .sendFailed clock, prev => markSendError clock 0 prev
  | .summarizing id, prev =>
    mapById id (fun msg => { msg with isSummarizing := some true }) prev
  | .summarized id summary, prev =>
    mapById id (fun msg => { msg with isSummarizing := some false, summary := some summary }) prev
  | .summaryFailed id, prev =>
    mapById id (fun msg => { msg with isSummarizing := some false, summaryError := some true }) prev
  | .translating id target, prev =>
    mapById id (fun msg => { msg with isTranslating := some true, targetLanguage := some target }) prev
  | .translated id target translation, prev =>
    mapById id (fun msg => { msg with
      isTranslating := some false,
      translations := some ((msg.translations.getD []).set target translation) }) prev
  | .translationFailed id, prev =>
    mapById id (fun msg => { msg with isTranslating := some false, translationError := some true }) prev

/-- Updaters applied one after the other, oldest first. -/
def applyUpdates (us : List Update) (prev : List Message) : List Message :=
  us.foldl (fun acc u => applyUpdate u acc) prev

/-- The effect of an updater on the element at index `k` of `prev`. -/
def Update.onElement : Update → Nat → Message → Message
  | .detected id lang name conf, _, msg =>
    if msg.id = id then { msg with
      isProcessing := false, detectedLanguage := some lang,
      languageName := some name, confidence := some conf } else msg
  | .processed id, _, msg =>
    if msg.id = id then { msg with isProcessing := false } else msg
  | .sendFailed clock, k, msg =>
    if msg.id = clock k then { msg with isProcessing := false, hasError := some true } else msg
  | .summarizing id, _, msg =>
    if msg.id = id then { msg with isSummarizing := some true } else msg
  | .summarized id summary, _, msg =>
    if msg.id = id then { msg with isSummarizing := some false, summary := some summary } else msg
  | .summaryFailed id, _, msg =>
    if msg.id = id then { msg with isSummarizing := some false, summaryError := some true } else msg
  | .translating id target, _, msg =>
    if msg.id = id then { msg with isTranslating := some true, targetLanguage := some target }
    else msg
  | .translated id target translation, _, msg =>
    if msg.id = id then { msg with
      isTranslating := some false,
      translations := some ((msg.translations.getD []).set target translation) } else msg
  | .translationFailed id, _, msg =>
    if msg.id = id then { msg with isTranslating := some false, translationError := some true }
    else msg

/-- The effect of a sequence of updaters on the element at index `k`. -/
def onElements (us : List Update) (k : Nat) (msg : Message) : Message :=
  us.foldl (fun acc u => u.onElement k acc) msg

/-- The entry `message.translations[code]`, when there is one. -/
def Message.translation (msg : Message) (code : String) : Option String :=
  (msg.translations.getD []).get code

/-- The fields written by the send handler after the append. -/
def Message.detectionFields (msg : Message) :
    Bool × Option String × Option String × Option String × Option Bool :=
  (msg.isProcessing, msg.detectedLanguage, msg.languageName, msg.confidence, msg.hasError)

/-- The fields written by `handleSummarize`. -/
def Message.summarizeFields (msg : Message) : Option Bool × Option String × Option Bool :=
  (msg.isSummarizing, msg.summary, msg.summaryError)

/-- The fields written by `handleTranslate`. -/
def Message.translateFields (msg : Message) :
    Option Bool × Option String × Option Obj × Option Bool :=
  (msg.isTranslating, msg.targetLanguage, msg.translations, msg.translationError)

/-- The record `later` is the record `earlier` at a later time, with every
error flag that was raised still raised. -/
def flagsKept (earlier later : Message) : Prop :=
  later.id = earlier.id ∧
  (earlier.hasError = some true → later.hasError = some true) ∧
  (earlier.summaryError = some true → later.summaryError = some true) ∧
  (earlier.translationError = some true → later.translationError = some true)

/-- The part of a message that is fixed when it is created. -/
def Message.key (msg : Message) : Nat × String × String :=
  (msg.id, msg.text, msg.timestamp)

/-! ## The handlers -/

/-- The state variables of `App`. `detector` records whether the detector
handle is non-null. -/
structure AppState where
  messages : List Message := []
  inputText : String := ""
  isDetectorReady : Bool := false
  isTranslatorReady : Bool := false
  isSummarizerReady : Bool := false
  detector : Bool := false
  error : String := ""
  deriving DecidableEq

/-- What the awaited part of `handleSendMessage` (lines 73-78) did: it
produced a detection result, or something in it threw and the `catch` block
ran with the given clock readings. -/
inductive Detection where
  | result (detectedLanguage languageName confidence : String)
  | thrown (message : String) (clock : Nat → Nat)

/-- What an awaited summarizer or translator call did. -/
inductive HostCall where
  | returned (value : String)
  | thrown (message : String)

/-- Lines 58-69 of `handleSendMessage`: the guard, the append and the
clearing of the input field. -/
def handleSendMessageSync (st : AppState) (now : Nat) (isoTime : String) : AppState :=
  if jsTrim st.inputText = "" then st
  else { st with
    messages := st.messages ++ [newMessage st.inputText now isoTime]
    inputText := "" }

/-- The handler `handleSendMessage` up to its first `await`: with a ready
detector it stops after line 69, otherwise it runs to its end (lines 92-97). -/
def handleSendMessageToAwait (st : AppState) (now : Nat) (isoTime : String) : AppState :=
  if jsTrim st.inputText = "" then st
  else
    let st1 := handleSendMessageSync st now isoTime
    if st.isDetectorReady && st.detector then st1
    else { st1 with messages := applyUpdate (.processed now) st1.messages }

/-- A whole run of `handleSendMessage` with nothing else happening while it
waits for the detector. -/
def handleSendMessage (st : AppState) (now : Nat) (isoTime : String) (d : Detection) :
    AppState :=
  if jsTrim st.inputText = "" then st
  else
    let st1 := handleSendMessageSync st now isoTime
    if st.isDetectorReady && st.detector then
      match d with
      | .result lang name conf =>
        { st1 with messages := applyUpdate (.detected now lang name conf) st1.messages }
      | .thrown message clock =>
        { st1 with
          error := "Error processing message: " ++ message
          messages := applyUpdate (.sendFailed clock) st1.messages }
    else { st1 with messages := applyUpdate (.processed now) st1.messages }

/-- The updaters that a run of `handleSummarize` passes to `setMessages`, in
order; `messages` is the list the handler closes over. -/
def handleSummarize (messages : List Message) (messageId : Nat) (r : HostCall) : List Update :=
  match messages.find? (fun msg => msg.id == messageId) with
  | none => []
  | some _ =>
    [.summarizing messageId,
     match r with
     | .returned summary => .summarized messageId summary
     | .thrown _ => .summaryFailed messageId]

/-- The updaters that a run of `handleTranslate` passes to `setMessages`, in
order; `messages` is the list the handler closes over. -/
def handleTranslate (messages : List Message) (messageId : Nat) (targetLanguage : String)
    (r : HostCall) : List Update :=
  match messages.find? (fun msg => msg.id == messageId) with
  | none => []
  | some _ =>
    [.translating messageId targetLanguage,
     match r with
     | .returned translation => .translated messageId targetLanguage translation
     | .thrown _ => .translationFailed messageId]

/-- The prop `canSummarize` handed to `MessageBubble` (lines 243-246). -/
def canSummarize (isSummarizerReady : Bool) (message : Message) : Bool :=
  isSummarizerReady &&
    message.detectedLanguage == some "en" &&
    decide (jsLength message.text > 150) &&
    !truthy message.summary

/-- An English message whose text is `n` letters, with the given summary. -/
def englishMessage (n : Nat) (summary : Option String) : Message :=
  { id := 1, text := String.mk (List.replicate n 'a'), timestamp := "t",
    isProcessing := false, detectedLanguage := some "en", summary := summary }

/-- No message is waiting for the detector. -/
def allProcessed (messages : List Message) : Prop :=
  ∀ (p : Nat) (msg : Message), messages[p]? = some msg → msg.isProcessing = false

/-- A detected French message that already has a Portuguese translation. -/
def bonjour : Message :=
  { id := 1000, text := "Bonjour le monde", timestamp := "t", isProcessing := false,
    detectedLanguage := some "fr", languageName := some "French", confidence := some "97.0",
    translations := some [("pt", "Ola mundo")] }

/-! ## Runs of the application -/

/-- What the UI thread processes, one at a time. -/
inductive Event where
  /-- The `onChange` of the text area. -/
  | typed (value : String)
  /-- Lines 28-30: the detector was created. -/
  | detectorCreated
  /-- Line 35. -/
  | translatorFound
  /-- Line 40. -/
  | summarizerFound
  /-- A call of `setError`. -/
  | errorShown (text : String)
  /-- The send button or the Enter key: `handleSendMessage` up to its first
  `await`. -/
  | send (now : Nat) (isoTime : String)
  /-- A later updater of one of the three handlers. -/
  | updater (u : Update)

/-- One event. -/
def step (st : AppState) : Event → AppState
  | .typed value => { st with inputText := value }
  | .detectorCreated => { st with detector := true, isDetectorReady := true }
  | .translatorFound => { st with isTranslatorReady := true }
  | .summarizerFound => { st with isSummarizerReady := true }
  | .errorShown text => { st with error := text }
  | .send now isoTime => handleSendMessageToAwait st now isoTime
  | .updater u => { st with messages := applyUpdate u st.messages }

/-- A sequence of events, oldest first. -/
def run (evs : List Event) (st : AppState) : AppState :=
  evs.foldl step st

/-- The state after the first render. -/
def init : AppState := {}

/-- The clock readings handed to the send events of a run. -/
def sendClocks : List Event → List Nat
  | [] => []
  | .send now _ :: evs => now :: sendClocks evs
  | _ :: evs => sendClocks evs

/-- All ways of merging two sequences, each keeping its own order. -/
def interleavings {α : Type} : List α → List α → List (List α)
  | [], ys => [ys]
  | xs, [] => [xs]
  | x :: xs, y :: ys =>
    (interleavings xs (y :: ys)).map (fun zs => x :: zs) ++
      (interleavings (x :: xs) ys).map (fun zs => y :: zs)
termination_by xs ys => xs.length + ys.length

end App

namespace App

/-! ## Updaters, element by element -/

theorem getElem?_mapById (id : Nat) (f : Message → Message) (prev : List Message) (p : Nat) :
    (mapById id f prev)[p]? = (prev[p]?).map (fun msg => if msg.id = id then f msg else msg) := by
  simp [mapById]

theorem getElem?_markSendError (clock : Nat → Nat) (prev : List Message) :
    ∀ (k p : Nat), (markSendError clock k prev)[p]? =
      (prev[p]?).map (fun msg =>
        if msg.id = clock (k + p) then { msg with isProcessing := false, hasError := some true }
        else msg) := by
  induction prev with
  | nil => intro k p; simp [markSendError]
  | cons m rest ih =>
    intro k p
    cases p with
    | zero => simp [markSendError]
    | succ q =>
      simp only [markSendError, List.getElem?_cons_succ, ih]
      have : k + 1 + q = k + (q + 1) := by omega
      rw [this]

theorem getElem?_applyUpdate (u : Update) (prev : List Message) (p : Nat) :
    (applyUpdate u prev)[p]? = (prev[p]?).map (u.onElement p) := by
  cases u <;>
    simp only [applyUpdate, getElem?_mapById, getElem?_markSendError, Nat.zero_add] <;> rfl

theorem length_applyUpdate (u : Update) (prev : List Message) :
    (applyUpdate u prev).length = prev.length := by
  apply Nat.le_antisymm
  · by_contra h
    have hlt : prev.length < (applyUpdate u prev).length := by omega
    have h1 := getElem?_applyUpdate u prev prev.length
    rw [List.getElem?_eq_getElem hlt] at h1
    simp at h1
  · by_contra h
    have hlt : (applyUpdate u prev).length < prev.length := by omega
    have h1 := getElem?_applyUpdate u prev (applyUpdate u prev).length
    rw [List.getElem?_eq_getElem hlt] at h1
    simp at h1

theorem onElement_id (u : Update) (k : Nat) (msg : Message) :
    (u.onElement k msg).id = msg.id := by
  cases u <;> simp only [Update.onElement] <;> split <;> rfl

theorem onElement_text (u : Update) (k : Nat) (msg : Message) :
    (u.onElement k msg).text = msg.text := by
  cases u <;> simp only [Update.onElement] <;> split <;> rfl

theorem onElement_timestamp (u : Update) (k : Nat) (msg : Message) :
    (u.onElement k msg).timestamp = msg.timestamp := by
  cases u <;> simp only [Update.onElement] <;> split <;> rfl

theorem map_applyUpdate {β : Type} (g : Message → β) (u : Update)
    (hg : ∀ k msg, g (u.onElement k msg) = g msg) (prev : List Message) :
    (applyUpdate u prev).map g = prev.map g := by
  apply List.ext_getElem?
  intro p
  simp only [List.getElem?_map, getElem?_applyUpdate, Option.map_map]
  cases prev[p]? with
  | none => rfl
  | some msg => simp [hg]

theorem onElement_key (u : Update) (k : Nat) (msg : Message) :
    (u.onElement k msg).key = msg.key := by
  simp [Message.key, onElement_id, onElement_text, onElement_timestamp]

theorem key_applyUpdate (u : Update) (prev : List Message) :
    (applyUpdate u prev).map Message.key = prev.map Message.key :=
  map_applyUpdate Message.key u (onElement_key u) prev

/-- What one event does to the fixed parts of the messages: nothing, or, for
an accepted send, one more at the end. -/
theorem key_step (st : AppState) (e : Event) :
    (step st e).messages.map Message.key = st.messages.map Message.key ∨
    ∃ now isoTime, e = .send now isoTime ∧ jsTrim st.inputText ≠ "" ∧
      (step st e).messages.map Message.key =
        st.messages.map Message.key ++ [(now, jsTrim st.inputText, isoTime)] := by
  cases e with
  | send now isoTime =>
    by_cases hb : jsTrim st.inputText = ""
    · left; simp [step, handleSendMessageToAwait, hb]
    · right
      refine ⟨now, isoTime, rfl, hb, ?_⟩
      by_cases hr : (st.isDetectorReady && st.detector) = true
      · simp [step, handleSendMessageToAwait, handleSendMessageSync, hb, hr, newMessage,
          Message.key]
      · simp [step, handleSendMessageToAwait, handleSendMessageSync, hb, hr, key_applyUpdate,
          newMessage, Message.key]
  | updater u => left; simp [step, key_applyUpdate]
  | typed v => left; rfl
  | detectorCreated => left; rfl
  | translatorFound => left; rfl
  | summarizerFound => left; rfl
  | errorShown t => left; rfl

theorem key_prefix_step (st : AppState) (e : Event) :
    st.messages.map Message.key <+: (step st e).messages.map Message.key := by
  rcases key_step st e with h | ⟨_, _, _, _, h⟩
  · rw [h]
  · rw [h]; exact List.prefix_append _ _

theorem key_prefix_run (evs : List Event) :
    ∀ st : AppState, st.messages.map Message.key <+: (run evs st).messages.map Message.key := by
  induction evs with
  | nil => intro st; exact List.prefix_refl _
  | cons e evs ih =>
    intro st
    exact List.IsPrefix.trans (key_prefix_step st e) (ih (step st e))

/-! ## Sending -/

/-- C1. For every state (message sequence and input text) and every clock
reading: when the trimmed input is not empty, lines 58-69 of
`handleSendMessage` leave the sequence with exactly one more record at the
end, whose text is the trimmed input and which is processing, and empty the
input field; when the trimmed input is empty, the handler changes nothing,
whatever the detector would have answered. -/
theorem handleSendMessage_sync_appends (st : AppState) (now : Nat) (isoTime : String) :
    (jsTrim st.inputText ≠ "" →
      ∃ m : Message,
        (handleSendMessageSync st now isoTime).messages = st.messages ++ [m] ∧
        m.text = jsTrim st.inputText ∧ m.isProcessing = true ∧ m.id = now ∧
        (handleSendMessageSync st now isoTime).inputText = "") ∧
    (jsTrim st.inputText = "" →
      handleSendMessageSync st now isoTime = st ∧
      handleSendMessageToAwait st now isoTime = st ∧
      ∀ d : Detection, handleSendMessage st now isoTime d = st) := by
  constructor
  · intro h
    exact ⟨newMessage st.inputText now isoTime, by simp [handleSendMessageSync, h],
      rfl, rfl, rfl, by simp [handleSendMessageSync, h]⟩
  · intro h
    simp [handleSendMessageSync, handleSendMessageToAwait, handleSendMessage, h]

/-- A send of `"  Bonjour le monde \n"` after one earlier message, and a send
of blanks only. -/
theorem handleSendMessage_sync_appends_witness :
    (∃ m : Message,
      (handleSendMessageSync
        { messages := [{ id := 7, text := "hi", timestamp := "t0", isProcessing := false }],
          inputText := "  Bonjour le monde \n" } 9 "t1").messages =
        [{ id := 7, text := "hi", timestamp := "t0", isProcessing := false }] ++ [m] ∧
      m.text = "Bonjour le monde" ∧ m.isProcessing = true ∧ m.id = 9 ∧
      (handleSendMessageSync
        { messages := [{ id := 7, text := "hi", timestamp := "t0", isProcessing := false }],
          inputText := "  Bonjour le monde \n" } 9 "t1").inputText = "") ∧
    handleSendMessageSync { inputText := " \t\n" } 9 "t1" = { inputText := " \t\n" } :=
  ⟨(handleSendMessage_sync_appends
      { messages := [{ id := 7, text := "hi", timestamp := "t0", isProcessing := false }],
        inputText := "  Bonjour le monde \n" } 9 "t1").1 (by decide),
   ((handleSendMessage_sync_appends { inputText := " \t\n" } 9 "t1").2 (by decide)).1⟩

/-! ## The sequence only grows -/

/-- C8. Every updater of the three handlers keeps the length of the message
sequence and, position by position, the id, text and timestamp of each
message; an event changes these only when it is an accepted send, which adds
one record at the end; hence the sequence of (id, text, timestamp) of any
state is a prefix of that of every later state. -/
theorem messages_only_grow :
    (∀ (u : Update) (prev : List Message),
      (applyUpdate u prev).length = prev.length ∧
      (applyUpdate u prev).map Message.key = prev.map Message.key) ∧
    (∀ (st : AppState) (e : Event),
      (step st e).messages.map Message.key = st.messages.map Message.key ∨
      ∃ now isoTime, e = .send now isoTime ∧ jsTrim st.inputText ≠ "" ∧
        (step st e).messages.map Message.key =
          st.messages.map Message.key ++ [(now, jsTrim st.inputText, isoTime)]) ∧
    (∀ (evs later : List Event) (st : AppState),
      (run evs st).messages.map Message.key <+:
        (run (evs ++ later) st).messages.map Message.key) := by
  refine ⟨fun u prev => ⟨length_applyUpdate u prev, key_applyUpdate u prev⟩, key_step, ?_⟩
  intro evs later st
  have h := key_prefix_run later (run evs st)
  simpa [run, List.foldl_append] using h

/-! ## Message ids -/

theorem id_step (st : AppState) (e : Event) :
    (step st e).messages.map Message.id = st.messages.map Message.id ∨
    ∃ now isoTime, e = .send now isoTime ∧
      (step st e).messages.map Message.id = st.messages.map Message.id ++ [now] := by
  have hfst : ∀ l : List Message, l.map Message.id = (l.map Message.key).map Prod.fst := by
    intro l; simp [Message.key]
  rcases key_step st e with h | ⟨now, isoTime, he, _, h⟩
  · left; rw [hfst, h, ← hfst]
  · right; exact ⟨now, isoTime, he, by rw [hfst, h, List.map_append, ← hfst]; rfl⟩

theorem sendClocks_cons_sublist (e : Event) (evs : List Event) :
    List.Sublist (sendClocks evs) (sendClocks (e :: evs)) := by
  cases e <;> simp [sendClocks]

theorem id_run (evs : List Event) :
    ∀ st : AppState, ∃ l : List Nat, List.Sublist l (sendClocks evs) ∧
      (run evs st).messages.map Message.id = st.messages.map Message.id ++ l := by
  induction evs with
  | nil => intro st; exact ⟨[], List.Sublist.refl _, by simp [run]⟩
  | cons e evs ih =>
    intro st
    obtain ⟨l, hl, hrun⟩ := ih (step st e)
    have hrun2 : (run (e :: evs) st).messages.map Message.id =
        (step st e).messages.map Message.id ++ l := hrun
    rcases id_step st e with h | ⟨now, isoTime, he, h⟩
    · exact ⟨l, hl.trans (sendClocks_cons_sublist e evs), by rw [hrun2, h]⟩
    · refine ⟨now :: l, ?_, by rw [hrun2, h]; simp⟩
      subst he
      simpa [sendClocks] using hl

/-- C2, as the code has it. When the clock readings taken by the sends of a
run strictly increase from one send to the next, the ids of the messages of
every state reached from the initial state strictly increase along the
sequence; in particular they are pairwise distinct. -/
theorem ids_distinct_of_strict_clock (evs : List Event)
    (hclock : (sendClocks evs).Pairwise (fun a b => a < b)) :
    ((run evs init).messages.map Message.id).Pairwise (fun a b => a < b) ∧
    ((run evs init).messages.map Message.id).Nodup := by
  obtain ⟨l, hl, hrun⟩ := id_run evs init
  have hids : (run evs init).messages.map Message.id = l := by
    rw [hrun]; simp [init]
  have hlt : ((run evs init).messages.map Message.id).Pairwise (fun a b => a < b) := by
    rw [hids]; exact hclock.sublist hl
  exact ⟨hlt, hlt.imp (fun h => Nat.ne_of_lt h)⟩

/-- Two sends at the readings 5 and 8, with a summarize step in between. -/
theorem ids_distinct_of_strict_clock_witness :
    ((run [.typed "a", .send 5 "t", .updater (.summarizing 5), .typed "b", .send 8 "u"]
      init).messages.map Message.id).Pairwise (fun a b => a < b) ∧
    ((run [.typed "a", .send 5 "t", .updater (.summarizing 5), .typed "b", .send 8 "u"]
      init).messages.map Message.id).Nodup :=
  ids_distinct_of_strict_clock
    [.typed "a", .send 5 "t", .updater (.summarizing 5), .typed "b", .send 8 "u"]
    (by simp [sendClocks])

/-- C2 fails for a clock that is only non-decreasing: two sends that read
the same millisecond create two messages with the same id. -/
theorem ids_not_distinct_same_millisecond :
    (sendClocks [.typed "a", .send 5 "t", .typed "b", .send 5 "t"]).Pairwise
      (fun a b => a ≤ b) ∧
    (run [.typed "a", .send 5 "t", .typed "b", .send 5 "t"] init).messages.map Message.id =
      [5, 5] ∧
    ¬ ((run [.typed "a", .send 5 "t", .typed "b", .send 5 "t"] init).messages.map
      Message.id).Nodup := by
  decide

/-! ## Eligibility for summarizing -/

theorem truthy_eq_false (v : Option String) :
    truthy v = false ↔ v = none ∨ v = some "" := by
  cases v with
  | none => simp [truthy]
  | some x => simp [truthy]

theorem jsLength_englishMessage (n : Nat) (summary : Option String) :
    jsLength (englishMessage n summary).text = n := by
  simp only [englishMessage, jsLength]
  induction n with
  | zero => rfl
  | succ k ih =>
    rw [List.replicate_succ, List.map_cons, List.sum_cons, ih]
    have : ('a'.toNat < 0x10000) := by decide
    simp only [this, if_true]
    omega

theorem canSummarize_eq_true (ready : Bool) (m : Message) :
    canSummarize ready m = true ↔
      (ready = true ∧ m.detectedLanguage = some "en" ∧ 150 < jsLength m.text ∧
        (m.summary = none ∨ m.summary = some "")) := by
  simp only [canSummarize, Bool.and_eq_true, beq_iff_eq, decide_eq_true_eq, Bool.not_eq_true',
    truthy_eq_false, gt_iff_lt, and_assoc]

/-- C4, as the code has it. The summarize action is offered exactly when the
summarizer is ready, the detected language is `en`, the text has more than
150 UTF-16 code units and the summary is falsy, that is, missing or the empty
string. With the other conditions holding, a text of length 150 is not
eligible and a text of length 151 is. -/
theorem canSummarize_iff :
    (∀ (ready : Bool) (m : Message),
      canSummarize ready m = true ↔
        (ready = true ∧ m.detectedLanguage = some "en" ∧ 150 < jsLength m.text ∧
          (m.summary = none ∨ m.summary = some ""))) ∧
    (∀ (ready : Bool) (m : Message), jsLength m.text = 150 → canSummarize ready m = false) ∧
    (∀ (m : Message), jsLength m.text = 151 → m.detectedLanguage = some "en" →
      m.summary = none → canSummarize true m = true) := by
  refine ⟨canSummarize_eq_true, ?_, ?_⟩
  · intro ready m h
    cases hc : canSummarize ready m with
    | false => rfl
    | true =>
      have := ((canSummarize_eq_true ready m).1 hc).2.2.1
      omega
  · intro m h1 h2 h3
    exact (canSummarize_eq_true true m).2 ⟨rfl, h2, by omega, Or.inl h3⟩

/-- English texts of 150 and of 151 letters, without a summary. -/
theorem canSummarize_iff_witness :
    canSummarize true (englishMessage 150 none) = false ∧
    canSummarize true (englishMessage 151 none) = true :=
  ⟨canSummarize_iff.2.1 true (englishMessage 150 none) (jsLength_englishMessage 150 none),
   canSummarize_iff.2.2 (englishMessage 151 none) (jsLength_englishMessage 151 none) rfl rfl⟩

/-- C4 fails as stated: after a summarize run whose summarizer returned the
empty string, the message has a summary, the empty one, and is still offered
the summarize action. -/
theorem canSummarize_with_empty_summary :
    applyUpdates (handleSummarize [englishMessage 151 none] 1 (.returned ""))
        [englishMessage 151 none] =
      [{ englishMessage 151 none with isSummarizing := some false, summary := some "" }] ∧
    (englishMessage 151 (some "")).summary = some "" ∧
    (englishMessage 151 (some "")).summary ≠ none ∧
    jsLength (englishMessage 151 (some "")).text = 151 ∧
    canSummarize true (englishMessage 151 (some "")) = true ∧
    canSummarize true
      { englishMessage 151 none with isSummarizing := some false, summary := some "" } = true :=
  ⟨rfl, rfl, fun h => Option.noConfusion h, jsLength_englishMessage 151 (some ""),
   (canSummarize_eq_true true (englishMessage 151 (some ""))).2
     ⟨rfl, rfl, by rw [jsLength_englishMessage]; decide, Or.inr rfl⟩,
   (canSummarize_eq_true true _).2
     ⟨rfl, rfl, by
        show 150 < jsLength (englishMessage 151 none).text
        rw [jsLength_englishMessage]; decide, Or.inr rfl⟩⟩

/-! ## A failed detection -/

/-- C5, what the code does. When the awaited detection throws and the clock
reading taken by the `catch` block for the created message differs from the
reading that became its id, the created message is left as it was appended:
still processing and without the error flag. -/
theorem sendFailed_misses_created_message (st : AppState) (now : Nat) (isoTime : String)
    (message : String) (clock : Nat → Nat)
    (hinput : jsTrim st.inputText ≠ "")
    (hready : (st.isDetectorReady && st.detector) = true)
    (hclock : clock st.messages.length ≠ now) :
    (handleSendMessage st now isoTime (.thrown message clock)).messages[st.messages.length]? =
      some (newMessage st.inputText now isoTime) ∧
    (newMessage st.inputText now isoTime).isProcessing = true ∧
    (newMessage st.inputText now isoTime).hasError = none := by
  refine ⟨?_, rfl, rfl⟩
  simp only [handleSendMessage, handleSendMessageSync, hinput, hready, if_true, if_false,
    getElem?_applyUpdate]
  have hne : ¬ (now = clock st.messages.length) := fun h => hclock h.symm
  simp [Update.onElement, newMessage, hne]

/-- The send at reading 1000 whose detection fails one millisecond later. -/
theorem sendFailed_misses_created_message_witness :
    (handleSendMessage
      { inputText := "Bonjour le monde", isDetectorReady := true, detector := true }
      1000 "t" (.thrown "detect failed" (fun _ => 1001))).messages[0]? =
      some (newMessage "Bonjour le monde" 1000 "t") ∧
    (newMessage "Bonjour le monde" 1000 "t").isProcessing = true ∧
    (newMessage "Bonjour le monde" 1000 "t").hasError = none :=
  sendFailed_misses_created_message
    { inputText := "Bonjour le monde", isDetectorReady := true, detector := true }
    1000 "t" "detect failed" (fun _ => 1001) (by decide) (by decide) (by decide)

/-! ## Sending without a detector -/

theorem onElement_isProcessing (u : Update) (k : Nat) (msg : Message)
    (h : msg.isProcessing = false) : (u.onElement k msg).isProcessing = false := by
  cases u <;> simp only [Update.onElement] <;> split <;> first | rfl | exact h

theorem allProcessed_applyUpdate (u : Update) (prev : List Message) (h : allProcessed prev) :
    allProcessed (applyUpdate u prev) := by
  intro p msg hp
  rw [getElem?_applyUpdate] at hp
  cases hq : prev[p]? with
  | none => rw [hq] at hp; cases hp
  | some m0 =>
    rw [hq] at hp
    simp only [Option.map_some'] at hp
    cases hp
    exact onElement_isProcessing u p m0 (h p m0 hq)

theorem markProcessed_eq (prev : List Message) (now : Nat) (h : allProcessed prev) :
    applyUpdate (.processed now) prev = prev := by
  apply List.ext_getElem?
  intro p
  rw [getElem?_applyUpdate]
  cases hq : prev[p]? with
  | none => rfl
  | some m0 =>
    have h0 := h p m0 hq
    simp only [Option.map_some', Update.onElement]
    split
    · cases m0; simp_all
    · rfl

/-- The whole handler, when the detector is not ready and nothing is waiting
for it. -/
theorem handleSendMessage_not_ready (st : AppState) (now : Nat) (isoTime : String)
    (d : Detection) (hready : (st.isDetectorReady && st.detector) = false)
    (hinput : jsTrim st.inputText ≠ "") (hall : allProcessed st.messages) :
    handleSendMessage st now isoTime d =
      { st with
        messages := st.messages ++
          [{ id := now, text := jsTrim st.inputText, timestamp := isoTime,
             isProcessing := false }]
        inputText := "" } ∧
    handleSendMessageToAwait st now isoTime = handleSendMessage st now isoTime d := by
  have hupd : applyUpdate (.processed now)
      (st.messages ++ [newMessage st.inputText now isoTime]) =
      st.messages ++ [{ newMessage st.inputText now isoTime with isProcessing := false }] := by
    have h1 : applyUpdate (.processed now)
        (st.messages ++ [newMessage st.inputText now isoTime]) =
        applyUpdate (.processed now) st.messages ++
          applyUpdate (.processed now) [newMessage st.inputText now isoTime] := by
      simp [applyUpdate, mapById]
    rw [h1, markProcessed_eq st.messages now hall]
    simp [applyUpdate, mapById, newMessage]
  simp only [handleSendMessage, handleSendMessageToAwait, handleSendMessageSync, hinput, hready,
    if_false, hupd, and_self]
  simp [newMessage]

theorem allProcessed_step (st : AppState) (e : Event)
    (h : (st.isDetectorReady && st.detector) = false → allProcessed st.messages) :
    ((step st e).isDetectorReady && (step st e).detector) = false →
      allProcessed (step st e).messages := by
  cases e with
  | typed v => exact h
  | translatorFound => exact h
  | summarizerFound => exact h
  | errorShown t => exact h
  | detectorCreated => intro hr; simp [step] at hr
  | updater u => intro hr; exact allProcessed_applyUpdate u st.messages (h hr)
  | send now isoTime =>
    by_cases hb : jsTrim st.inputText = ""
    · simpa [step, handleSendMessageToAwait, hb] using h
    · cases hr : (st.isDetectorReady && st.detector) with
      | true =>
        intro hr2
        simp [step, handleSendMessageToAwait, handleSendMessageSync, hb, hr] at hr2
      | false =>
        intro _
        have h2 := handleSendMessage_not_ready st now isoTime (.result "" "" "") hr hb (h hr)
        have h3 : step st (.send now isoTime) = handleSendMessageToAwait st now isoTime := rfl
        rw [h3, h2.2, h2.1]
        intro p msg hp
        simp only [List.getElem?_append] at hp
        split at hp
        · exact h hr p msg hp
        · rw [List.getElem?_cons] at hp
          split at hp
          · cases hp; rfl
          · simp at hp

theorem allProcessed_run (evs : List Event) :
    ∀ st : AppState, ((st.isDetectorReady && st.detector) = false → allProcessed st.messages) →
      ((run evs st).isDetectorReady && (run evs st).detector) = false →
        allProcessed (run evs st).messages := by
  induction evs with
  | nil => intro st h; exact h
  | cons e evs ih => intro st h; exact ih (step st e) (allProcessed_step st e h)

/-- C6. In every state reached from the initial state in which the detector
is not ready, a send of an input whose trimmed text is not empty runs to its
end without calling the detector: the error banner and all earlier messages
are unchanged, the input field is emptied, and exactly one message is added
at the end, not processing, with the trimmed text and with no detection
field and no error flag set. -/
theorem send_without_detector (evs : List Event) (now : Nat) (isoTime : String) (d : Detection)
    (hready : (run evs init).isDetectorReady = false)
    (hinput : jsTrim (run evs init).inputText ≠ "") :
    handleSendMessage (run evs init) now isoTime d =
      { run evs init with
        messages := (run evs init).messages ++
          [{ id := now, text := jsTrim (run evs init).inputText, timestamp := isoTime,
             isProcessing := false, detectedLanguage := none, languageName := none,
             confidence := none, hasError := none }]
        inputText := "" } ∧
    (handleSendMessage (run evs init) now isoTime d).error = (run evs init).error := by
  have hr : ((run evs init).isDetectorReady && (run evs init).detector) = false := by
    rw [hready]; rfl
  have hall : allProcessed (run evs init).messages :=
    allProcessed_run evs init (fun _ p msg hp => by simp [init] at hp) hr
  have h := (handleSendMessage_not_ready (run evs init) now isoTime d hr hinput hall).1
  exact ⟨h, by rw [h]⟩

/-- Two sends before any detector exists. -/
theorem send_without_detector_witness :
    handleSendMessage (run [.typed "one", .send 3 "t3", .typed " two "] init) 4 "t4"
        (.result "fr" "French" "97.0") =
      { run [.typed "one", .send 3 "t3", .typed " two "] init with
        messages := (run [.typed "one", .send 3 "t3", .typed " two "] init).messages ++
          [{ id := 4, text := jsTrim (run [.typed "one", .send 3 "t3", .typed " two "]
               init).inputText, timestamp := "t4",
             isProcessing := false, detectedLanguage := none, languageName := none,
             confidence := none, hasError := none }]
        inputText := "" } ∧
    (handleSendMessage (run [.typed "one", .send 3 "t3", .typed " two "] init) 4 "t4"
        (.result "fr" "French" "97.0")).error =
      (run [.typed "one", .send 3 "t3", .typed " two "] init).error :=
  send_without_detector [.typed "one", .send 3 "t3", .typed " two "] 4 "t4"
    (.result "fr" "French" "97.0") (by decide) (by decide)

/-! ## Translations -/

theorem getElem?_applyUpdates (us : List Update) :
    ∀ (prev : List Message) (p : Nat),
      (applyUpdates us prev)[p]? = (prev[p]?).map (onElements us p) := by
  induction us with
  | nil => intro prev p; cases h : prev[p]? <;> simp [applyUpdates, onElements, h]
  | cons u us ih =>
    intro prev p
    have h : applyUpdates (u :: us) prev = applyUpdates us (applyUpdate u prev) := rfl
    rw [h, ih, getElem?_applyUpdate]
    cases prev[p]? with
    | none => rfl
    | some m => rfl

theorem Obj.get_nil (k : String) : Obj.get [] k = none := rfl

theorem Obj.get_cons (e : String × String) (o : Obj) (k : String) :
    Obj.get (e :: o) k = if e.1 = k then some e.2 else Obj.get o k := by
  by_cases h : e.1 = k
  · simp [Obj.get, List.find?_cons, h]
  · simp [Obj.get, List.find?_cons, h]

theorem Obj.get_append_singleton (o : Obj) (k v k' : String) :
    Obj.get (o ++ [(k, v)]) k' =
      match Obj.get o k' with
      | some x => some x
      | none => if k = k' then some v else none := by
  induction o with
  | nil => simp [Obj.get_cons, Obj.get_nil]
  | cons e rest ih =>
    rw [List.cons_append, Obj.get_cons, Obj.get_cons, ih]
    by_cases h : e.1 = k' <;> simp [h]

theorem Obj.get_map_same (o : Obj) (k v : String)
    (h : o.any (fun e => e.1 == k) = true) :
    Obj.get (o.map (fun e => if e.1 == k then (k, v) else e)) k = some v := by
  induction o with
  | nil => simp at h
  | cons e rest ih =>
    rw [List.map_cons, Obj.get_cons]
    by_cases he : e.1 = k
    · simp [he]
    · have hr : rest.any (fun e => e.1 == k) = true := by
        simpa [List.any_cons, he] using h
      simpa [he] using ih hr

theorem Obj.get_map_other (o : Obj) (k v k' : String) (hk : k' ≠ k) :
    Obj.get (o.map (fun e => if e.1 == k then (k, v) else e)) k' = Obj.get o k' := by
  induction o with
  | nil => rfl
  | cons e rest ih =>
    rw [List.map_cons, Obj.get_cons, Obj.get_cons, ih]
    by_cases he : e.1 = k
    · have h1 : ¬ (e.1 = k') := fun h => hk (h.symm.trans he)
      have h2 : ¬ (k = k') := fun h => hk h.symm
      simp [he, h1, h2]
    · simp [he]

theorem Obj.get_set_same (o : Obj) (k v : String) : (o.set k v).get k = some v := by
  unfold Obj.set
  split
  · rename_i h
    exact Obj.get_map_same o k v h
  · rename_i h
    rw [Obj.get_append_singleton]
    cases hg : Obj.get o k with
    | none => simp
    | some x =>
      exfalso
      apply h
      simp only [Obj.get, Option.map_eq_some'] at hg
      obtain ⟨e, he, _⟩ := hg
      have hp : (e.1 == k) = true :=
        @List.find?_some _ (fun e : String × String => e.1 == k) e o he
      exact List.any_eq_true.2 ⟨e, List.mem_of_find?_eq_some he, hp⟩

theorem Obj.get_set_other (o : Obj) (k v k' : String) (hk : k' ≠ k) :
    (o.set k v).get k' = o.get k' := by
  unfold Obj.set
  split
  · exact Obj.get_map_other o k v k' hk
  · rw [Obj.get_append_singleton]
    have h2 : ¬ (k = k') := fun h => hk h.symm
    cases Obj.get o k' with
    | none => simp [h2]
    | some x => rfl

theorem handleTranslate_found (messages : List Message) (messageId : Nat) (target : String)
    (r : HostCall) (h : (messages.find? (fun msg => msg.id == messageId)).isSome = true) :
    handleTranslate messages messageId target r =
      [.translating messageId target,
       match r with
       | .returned translation => .translated messageId target translation
       | .thrown _ => .translationFailed messageId] := by
  unfold handleTranslate
  cases hf : messages.find? (fun msg => msg.id == messageId) with
  | none => rw [hf] at h; cases h
  | some m => rfl

theorem handleSummarize_found (messages : List Message) (messageId : Nat)
    (r : HostCall) (h : (messages.find? (fun msg => msg.id == messageId)).isSome = true) :
    handleSummarize messages messageId r =
      [.summarizing messageId,
       match r with
       | .returned summary => .summarized messageId summary
       | .thrown _ => .summaryFailed messageId] := by
  unfold handleSummarize
  cases hf : messages.find? (fun msg => msg.id == messageId) with
  | none => rw [hf] at h; cases h
  | some m => rfl

/-- C3. Let `M` be a message of the sequence and `L1`, `L2` two distinct
target codes. After two successful runs of `handleTranslate` on `M.id`, one
for `L1` returning `t1` and one for `L2` returning `t2`, whose updaters are
interleaved in any order, the message at the place of `M` is still `M` by id
and text, is not translating, has `t1` under `L1` and `t2` under `L2`, and
has under every other code exactly what `M` had. -/
theorem translations_additive (msgs snap1 snap2 : List Message) (p : Nat) (M : Message)
    (L1 L2 t1 t2 : String) (us : List Update)
    (hM : msgs[p]? = some M) (hL : L1 ≠ L2)
    (h1 : (snap1.find? (fun msg => msg.id == M.id)).isSome = true)
    (h2 : (snap2.find? (fun msg => msg.id == M.id)).isSome = true)
    (hus : us ∈ interleavings (handleTranslate snap1 M.id L1 (.returned t1))
      (handleTranslate snap2 M.id L2 (.returned t2))) :
    ∃ M' : Message, (applyUpdates us msgs)[p]? = some M' ∧
      M'.id = M.id ∧ M'.text = M.text ∧ M'.isTranslating = some false ∧
      M'.translation L1 = some t1 ∧ M'.translation L2 = some t2 ∧
      ∀ K : String, K ≠ L1 → K ≠ L2 → M'.translation K = M.translation K := by
  rw [handleTranslate_found _ _ _ _ h1, handleTranslate_found _ _ _ _ h2] at hus
  refine ⟨onElements us p M, by rw [getElem?_applyUpdates, hM]; rfl, ?_⟩
  have hL' : L2 ≠ L1 := fun h => hL h.symm
  simp only [interleavings, List.map_cons, List.map_nil, List.cons_append, List.nil_append,
    List.mem_cons, List.mem_singleton, List.not_mem_nil, or_false] at hus
  rcases hus with h | h | h | h | h | h <;> subst h <;>
    simp [onElements, Update.onElement, Message.translation, Obj.get_set_same,
      Obj.get_set_other, hL, hL'] <;>
    intro K hK1 hK2 <;>
    simp [Obj.get_set_other, hK1, hK2]

/-- Translating `bonjour` to English and to Spanish, the Spanish answer
arriving first. -/
theorem translations_additive_witness :
    ∃ M' : Message,
      (applyUpdates
        [.translating 1000 "en", .translating 1000 "es",
         .translated 1000 "es" "Hola mundo", .translated 1000 "en" "Hello world"]
        [bonjour])[0]? = some M' ∧
      M'.id = bonjour.id ∧ M'.text = bonjour.text ∧ M'.isTranslating = some false ∧
      M'.translation "en" = some "Hello world" ∧ M'.translation "es" = some "Hola mundo" ∧
      ∀ K : String, K ≠ "en" → K ≠ "es" → M'.translation K = bonjour.translation K :=
  translations_additive [bonjour] [bonjour] [bonjour] 0 bonjour "en" "es" "Hello world"
    "Hola mundo"
    [.translating 1000 "en", .translating 1000 "es",
     .translated 1000 "es" "Hola mundo", .translated 1000 "en" "Hello world"]
    rfl (by decide) (by decide) (by decide)
    (by simp [interleavings, handleTranslate, bonjour])

/-! ## Each handler writes its own fields -/

theorem mem_handleSummarize (snap : List Message) (i : Nat) (r : HostCall) (u : Update)
    (h : u ∈ handleSummarize snap i r) :
    u = .summarizing i ∨ (∃ summary, u = .summarized i summary) ∨ u = .summaryFailed i := by
  unfold handleSummarize at h
  cases hf : snap.find? (fun msg => msg.id == i) with
  | none => rw [hf] at h; simp at h
  | some m =>
    rw [hf] at h
    cases r with
    | returned v =>
      simp only [List.mem_cons, List.mem_singleton, List.not_mem_nil, or_false] at h
      rcases h with h | h
      · exact Or.inl h
      · exact Or.inr (Or.inl ⟨v, h⟩)
    | thrown e =>
      simp only [List.mem_cons, List.mem_singleton, List.not_mem_nil, or_false] at h
      rcases h with h | h
      · exact Or.inl h
      · exact Or.inr (Or.inr h)

theorem mem_handleTranslate (snap : List Message) (i : Nat) (target : String) (r : HostCall)
    (u : Update) (h : u ∈ handleTranslate snap i target r) :
    u = .translating i target ∨ (∃ translation, u = .translated i target translation) ∨
      u = .translationFailed i := by
  unfold handleTranslate at h
  cases hf : snap.find? (fun msg => msg.id == i) with
  | none => rw [hf] at h; simp at h
  | some m =>
    rw [hf] at h
    cases r with
    | returned v =>
      simp only [List.mem_cons, List.mem_singleton, List.not_mem_nil, or_false] at h
      rcases h with h | h
      · exact Or.inl h
      · exact Or.inr (Or.inl ⟨v, h⟩)
    | thrown e =>
      simp only [List.mem_cons, List.mem_singleton, List.not_mem_nil, or_false] at h
      rcases h with h | h
      · exact Or.inl h
      · exact Or.inr (Or.inr h)

theorem summarize_onElement (snap : List Message) (i : Nat) (r : HostCall) (u : Update)
    (h : u ∈ handleSummarize snap i r) (k : Nat) (msg : Message) :
    (msg.id ≠ i → u.onElement k msg = msg) ∧
    (u.onElement k msg).translateFields = msg.translateFields ∧
    (u.onElement k msg).detectionFields = msg.detectionFields := by
  rcases mem_handleSummarize snap i r u h with h | ⟨v, h⟩ | h <;> subst h <;>
    refine ⟨fun hne => by simp [Update.onElement, hne], ?_, ?_⟩ <;>
    simp only [Update.onElement] <;> split <;> rfl

theorem translate_onElement (snap : List Message) (i : Nat) (target : String) (r : HostCall)
    (u : Update) (h : u ∈ handleTranslate snap i target r) (k : Nat) (msg : Message) :
    (msg.id ≠ i → u.onElement k msg = msg) ∧
    (u.onElement k msg).summarizeFields = msg.summarizeFields ∧
    (u.onElement k msg).detectionFields = msg.detectionFields := by
  rcases mem_handleTranslate snap i target r u h with h | ⟨v, h⟩ | h <;> subst h <;>
    refine ⟨fun hne => by simp [Update.onElement, hne], ?_, ?_⟩ <;>
    simp only [Update.onElement] <;> split <;> rfl

theorem summarize_translate_onElement_comm (snap1 snap2 : List Message) (i j : Nat)
    (target : String) (r1 r2 : HostCall) (s t : Update)
    (hs : s ∈ handleSummarize snap1 i r1) (ht : t ∈ handleTranslate snap2 j target r2)
    (k : Nat) (msg : Message) :
    s.onElement k (t.onElement k msg) = t.onElement k (s.onElement k msg) := by
  rcases mem_handleSummarize snap1 i r1 s hs with h | ⟨v, h⟩ | h <;> subst h <;>
    rcases mem_handleTranslate snap2 j target r2 t ht with h | ⟨w, h⟩ | h <;> subst h <;>
    simp only [Update.onElement] <;> split <;> split <;> simp_all

/-- C9. Every updater of a run of `handleSummarize` on id `i` leaves each
message with another id as it is and leaves, on every message, the fields of
translation and of detection as they are; every updater of a run of
`handleTranslate` on id `i` leaves each message with another id as it is and
leaves the fields of summarizing and of detection as they are; and an updater
of the one handler commutes with an updater of the other, on the same or on
different ids. -/
theorem handlers_write_own_fields :
    (∀ (snap : List Message) (i : Nat) (r : HostCall) (u : Update),
      u ∈ handleSummarize snap i r →
      ∀ (prev : List Message) (p : Nat) (msg : Message), prev[p]? = some msg →
        ∃ msg' : Message, (applyUpdate u prev)[p]? = some msg' ∧
          (msg.id ≠ i → msg' = msg) ∧
          msg'.translateFields = msg.translateFields ∧
          msg'.detectionFields = msg.detectionFields) ∧
    (∀ (snap : List Message) (i : Nat) (target : String) (r : HostCall) (u : Update),
      u ∈ handleTranslate snap i target r →
      ∀ (prev : List Message) (p : Nat) (msg : Message), prev[p]? = some msg →
        ∃ msg' : Message, (applyUpdate u prev)[p]? = some msg' ∧
          (msg.id ≠ i → msg' = msg) ∧
          msg'.summarizeFields = msg.summarizeFields ∧
          msg'.detectionFields = msg.detectionFields) ∧
    (∀ (snap1 snap2 : List Message) (i j : Nat) (target : String) (r1 r2 : HostCall)
      (s t : Update),
      s ∈ handleSummarize snap1 i r1 → t ∈ handleTranslate snap2 j target r2 →
      ∀ prev : List Message,
        applyUpdate s (applyUpdate t prev) = applyUpdate t (applyUpdate s prev)) := by
  refine ⟨?_, ?_, ?_⟩
  · intro snap i r u hu prev p msg hp
    refine ⟨u.onElement p msg, by rw [getElem?_applyUpdate, hp]; rfl, ?_⟩
    exact summarize_onElement snap i r u hu p msg
  · intro snap i target r u hu prev p msg hp
    refine ⟨u.onElement p msg, by rw [getElem?_applyUpdate, hp]; rfl, ?_⟩
    exact translate_onElement snap i target r u hu p msg
  · intro snap1 snap2 i j target r1 r2 s t hs ht prev
    apply List.ext_getElem?
    intro p
    simp only [getElem?_applyUpdate, Option.map_map]
    cases prev[p]? with
    | none => rfl
    | some msg =>
      simp only [Option.map_some', Function.comp_apply]
      rw [summarize_translate_onElement_comm snap1 snap2 i j target r1 r2 s t hs ht p msg]

/-- A summary and a translation of `bonjour` completing in either order. -/
theorem handlers_write_own_fields_witness :
    applyUpdate (.summarized 1000 "Greeting.")
        (applyUpdate (.translated 1000 "en" "Hello world") [bonjour]) =
      applyUpdate (.translated 1000 "en" "Hello world")
        (applyUpdate (.summarized 1000 "Greeting.") [bonjour]) :=
  handlers_write_own_fields.2.2 [bonjour] [bonjour] 1000 1000 "en"
    (.returned "Greeting.") (.returned "Hello world")
    (.summarized 1000 "Greeting.") (.translated 1000 "en" "Hello world")
    (by simp [handleSummarize, bonjour]) (by simp [handleTranslate, bonjour]) [bonjour]

/-! ## Error flags -/

theorem flagsKept_refl (msg : Message) : flagsKept msg msg :=
  ⟨rfl, id, id, id⟩

theorem flagsKept_trans (a b c : Message) (h1 : flagsKept a b) (h2 : flagsKept b c) :
    flagsKept a c :=
  ⟨h2.1.trans h1.1, fun h => h2.2.1 (h1.2.1 h), fun h => h2.2.2.1 (h1.2.2.1 h),
    fun h => h2.2.2.2 (h1.2.2.2 h)⟩

theorem flagsKept_onElement (u : Update) (k : Nat) (msg : Message) :
    flagsKept msg (u.onElement k msg) := by
  refine ⟨onElement_id u k msg, ?_, ?_, ?_⟩ <;>
    cases u <;> simp only [Update.onElement] <;> split <;> intro h <;> first | rfl | exact h

theorem flagsKept_step (st : AppState) (e : Event) (p : Nat) (msg : Message)
    (hp : st.messages[p]? = some msg) :
    ∃ msg' : Message, (step st e).messages[p]? = some msg' ∧ flagsKept msg msg' := by
  have hlt : p < st.messages.length := by
    by_contra h
    rw [List.getElem?_eq_none (by omega)] at hp
    cases hp
  cases e with
  | typed v => exact ⟨msg, hp, flagsKept_refl msg⟩
  | detectorCreated => exact ⟨msg, hp, flagsKept_refl msg⟩
  | translatorFound => exact ⟨msg, hp, flagsKept_refl msg⟩
  | summarizerFound => exact ⟨msg, hp, flagsKept_refl msg⟩
  | errorShown t => exact ⟨msg, hp, flagsKept_refl msg⟩
  | updater u =>
    exact ⟨u.onElement p msg, by simp only [step]; rw [getElem?_applyUpdate, hp]; rfl,
      flagsKept_onElement u p msg⟩
  | send now isoTime =>
    have happ : (st.messages ++ [newMessage st.inputText now isoTime])[p]? = some msg := by
      rw [List.getElem?_append_left hlt, hp]
    by_cases hb : jsTrim st.inputText = ""
    · exact ⟨msg, by simpa [step, handleSendMessageToAwait, hb] using hp, flagsKept_refl msg⟩
    · by_cases hr : (st.isDetectorReady && st.detector) = true
      · exact ⟨msg, by
          simpa [step, handleSendMessageToAwait, handleSendMessageSync, hb, hr] using happ,
          flagsKept_refl msg⟩
      · refine ⟨(Update.processed now).onElement p msg, ?_, flagsKept_onElement _ p msg⟩
        have hr2 : (st.isDetectorReady && st.detector) = false := by simpa using hr
        simp only [step, handleSendMessageToAwait, handleSendMessageSync, hb, hr2, if_false,
          Bool.false_eq_true]
        rw [getElem?_applyUpdate, happ]
        rfl

theorem flagsKept_run (evs : List Event) :
    ∀ (st : AppState) (p : Nat) (msg : Message), st.messages[p]? = some msg →
      ∃ msg' : Message, (run evs st).messages[p]? = some msg' ∧ flagsKept msg msg' := by
  induction evs with
  | nil => intro st p msg hp; exact ⟨msg, hp, flagsKept_refl msg⟩
  | cons e evs ih =>
    intro st p msg hp
    obtain ⟨m1, h1, k1⟩ := flagsKept_step st e p msg hp
    obtain ⟨m2, h2, k2⟩ := ih (step st e) p m1 h1
    exact ⟨m2, h2, flagsKept_trans msg m1 m2 k1 k2⟩

/-- C10. No updater lowers an error flag: whatever the updater and the
message, `hasError`, `summaryError` and `translationError` stay `true` when
they were; so a message of any state has, in every later state, the same
place and id and every error flag it had. In particular a failed run of
`handleTranslate` followed by a successful one on the same message leaves
the translation stored, `isTranslating` false and `translationError` still
true, and likewise `handleSummarize` leaves the summary stored,
`isSummarizing` false and `summaryError` still true. -/
theorem error_flags_sticky :
    (∀ (u : Update) (prev : List Message) (p : Nat) (msg : Message),
      prev[p]? = some msg →
      ∃ msg' : Message, (applyUpdate u prev)[p]? = some msg' ∧ flagsKept msg msg') ∧
    (∀ (evs : List Event) (st : AppState) (p : Nat) (msg : Message),
      st.messages[p]? = some msg →
      ∃ msg' : Message, (run evs st).messages[p]? = some msg' ∧ flagsKept msg msg') ∧
    (∀ (msgs snap1 snap2 : List Message) (p : Nat) (M : Message)
      (L1 L2 failure translation : String),
      msgs[p]? = some M →
      (snap1.find? (fun msg => msg.id == M.id)).isSome = true →
      (snap2.find? (fun msg => msg.id == M.id)).isSome = true →
      ∃ M' : Message,
        (applyUpdates (handleTranslate snap1 M.id L1 (.thrown failure) ++
          handleTranslate snap2 M.id L2 (.returned translation)) msgs)[p]? = some M' ∧
        M'.translation L2 = some translation ∧ M'.isTranslating = some false ∧
        M'.translationError = some true) ∧
    (∀ (msgs snap1 snap2 : List Message) (p : Nat) (M : Message)
      (failure summary : String),
      msgs[p]? = some M →
      (snap1.find? (fun msg => msg.id == M.id)).isSome = true →
      (snap2.find? (fun msg => msg.id == M.id)).isSome = true →
      ∃ M' : Message,
        (applyUpdates (handleSummarize snap1 M.id (.thrown failure) ++
          handleSummarize snap2 M.id (.returned summary)) msgs)[p]? = some M' ∧
        M'.summary = some summary ∧ M'.isSummarizing = some false ∧
        M'.summaryError = some true) := by
  refine ⟨?_, flagsKept_run, ?_, ?_⟩
  · intro u prev p msg hp
    exact ⟨u.onElement p msg, by rw [getElem?_applyUpdate, hp]; rfl,
      flagsKept_onElement u p msg⟩
  · intro msgs snap1 snap2 p M L1 L2 failure translation hM h1 h2
    rw [handleTranslate_found _ _ _ _ h1, handleTranslate_found _ _ _ _ h2]
    refine ⟨_, by rw [getElem?_applyUpdates, hM]; rfl, ?_⟩
    simp [onElements, Update.onElement, Message.translation, Obj.get_set_same]
  · intro msgs snap1 snap2 p M failure summary hM h1 h2
    rw [handleSummarize_found _ _ _ h1, handleSummarize_found _ _ _ h2]
    refine ⟨_, by rw [getElem?_applyUpdates, hM]; rfl, ?_⟩
    simp [onElements, Update.onElement]

/-- A translation of `bonjour` to English that fails and is then retried. -/
theorem error_flags_sticky_witness :
    ∃ M' : Message,
      (applyUpdates (handleTranslate [bonjour] bonjour.id "en" (.thrown "offline") ++
        handleTranslate [bonjour] bonjour.id "en" (.returned "Hello world"))
        [bonjour])[0]? = some M' ∧
      M'.translation "en" = some "Hello world" ∧ M'.isTranslating = some false ∧
      M'.translationError = some true :=
  error_flags_sticky.2.2.1 [bonjour] [bonjour] [bonjour] 0 bonjour "en" "en" "offline"
    "Hello world" rfl (by decide) (by decide)

end App
